import Mathlib

/-!
Verification of the ensemble-statistics and rendering logic of
`permeability/plotting.py` against its natural-language specification.

Numeric arrays are embedded as lists of rationals (`List ℚ`); square roots,
where the code calls `np.sqrt`, live in `ℝ` via `Real.sqrt`.  A numpy array
of unknown rank is embedded as the sum type `NPArr` (ranks 1 to 3), and the
result of an axis-0 reduction as `NPVal`.
-/

set_option autoImplicit false

namespace Permeability

/-- Arithmetic mean of a list of rationals; embeds `np.mean` on a 1-D array
(and the per-column reduction of `np.mean(_, axis=0)`). Empty input yields
`0/0 = 0`. -/
def qmean (xs : List ℚ) : ℚ := xs.sum / (xs.length : ℚ)

/-- Column `j` of a sweep matrix: `M[:, j]` (missing entries default to 0). -/
def column (M : List (List ℚ)) (j : ℕ) : List ℚ :=
  M.map (fun row => row.getD j 0)

/-- Number of columns of a sweep matrix, read off the first row as numpy's
shape does for a nonempty rectangular array. -/
def cols (M : List (List ℚ)) : ℕ := (M.headD []).length

/-- `np.mean(M, axis=0)`: the vector of column means
(`plotting.py` line 39 / 89 / 181). -/
def meanVec (M : List (List ℚ)) : List ℚ :=
  (List.range (cols M)).map (fun j => qmean (column M j))

/-- Population variance, the quantity under the square root in `np.std`
with its default `ddof=0`: mean of the squared deviations from the mean. -/
def popVar (xs : List ℚ) : ℚ :=
  ((xs.map (fun x => (x - qmean xs) ^ 2)).sum) / (xs.length : ℚ)

/-- `np.std(xs)` (default `ddof=0`): square root of the population
variance. -/
noncomputable def npStd (xs : List ℚ) : ℝ := Real.sqrt ((popVar xs : ℚ) : ℝ)

/-- Per-column standard error exactly as the plotting routines compute it:
`np.std(forces, axis=0) / np.sqrt(forces.shape[0])`
(`plotting.py` lines 41, 91, 182). -/
noncomputable def stdErr (M : List (List ℚ)) (j : ℕ) : ℝ :=
  npStd (column M j) / Real.sqrt ((M.length : ℕ) : ℝ)

/-- The standard-error vector, one entry per column. -/
noncomputable def stdErrVec (M : List (List ℚ)) : List ℝ :=
  (List.range (cols M)).map (fun j => stdErr M j)

/-- The spec's `population_std(column)` written with the textbook alternate
formula `sqrt(E[x^2] - E[x]^2)`, to be compared against the code's
mean-of-squared-deviations form. -/
noncomputable def population_std (xs : List ℚ) : ℝ :=
  Real.sqrt ((((xs.map (fun x => x ^ 2)).sum / (xs.length : ℚ)
      - (xs.sum / (xs.length : ℚ)) ^ 2 : ℚ) : ℝ))

/-- A numpy array of rank 1, 2 or 3 over rationals. -/
inductive NPArr where
  | d1 (xs : List ℚ)
  | d2 (m : List (List ℚ))
  | d3 (t : List (List (List ℚ)))
deriving DecidableEq

/-- `arr.ndim`. -/
def ndim : NPArr → ℕ
  | .d1 _ => 1
  | .d2 _ => 2
  | .d3 _ => 3

/-- The inline sweep-matrix normalization of `plot_forces` /
`plot_free_energy_z` (`plotting.py` lines 35-36 and 85-86):
`if forces.ndim == 1: forces = forces.reshape((1, -1))`.
A rank-1 array becomes the single row of a rank-2 array; any other rank
passes through untouched. -/
def normalizeData : NPArr → NPArr
  | .d1 xs => .d2 [xs]
  | a => a

/-- Result of an axis-0 reduction of an `NPArr`: one rank lower. -/
inductive NPVal where
  | scal (q : ℚ)
  | vec (v : List ℚ)
  | mat (m : List (List ℚ))
deriving DecidableEq

/-- Elementwise mean over the first axis of a rank-3 array (shape read off
the first element, entries defaulting to 0). -/
def meanMats (t : List (List (List ℚ))) : List (List ℚ) :=
  (List.range (t.headD []).length).map (fun i =>
    (List.range ((t.headD []).getD i []).length).map (fun j =>
      qmean (t.map (fun m => (m.getD i []).getD j 0))))

/-- `np.mean(a, axis=0)` on an array of any supported rank: a rank-1 array
reduces to a scalar, a rank-2 array to its column-mean vector, a rank-3
array to an elementwise-mean matrix. -/
def npMeanAxis0 : NPArr → NPVal
  | .d1 xs => .scal (qmean xs)
  | .d2 m => .vec (meanVec m)
  | .d3 t => .mat (meanMats t)

/-- The mean computed by `plot_resistance_z` (`plotting.py` line 181):
`resist_mean = np.mean(resist, axis=0)`, applied directly to the input with
no prior dimensionality normalization. -/
def plot_resistance_mean (resist : NPArr) : NPVal := npMeanAxis0 resist

/-- In-place autocorrelation normalization `facf /= facf[0]`
(`plotting.py` lines 143-144 and 127-128): every sample is divided by the
sequence's original first sample. -/
def acfNormalize : List ℚ → List ℚ
  | [] => []
  | x :: xs => (x :: xs).map (fun y => y / x)

/-- Contents of the caller's autocorrelation arrays after
`plot_force_acfs_time(time, facfs, normalize=...)` returns
(`plotting.py` lines 142-144): the loop divides every `facf` in place by
its first element when `normalize` is set, including the odd-index
sequences that are never drawn. -/
def plot_force_acfs_effect (facfs : List (List ℚ)) (normalize : Bool) :
    List (List ℚ) :=
  if normalize then facfs.map acfNormalize else facfs

/-- x-limits of every profile-rendering routine
(`plotting.py` lines 49-50, 100-101, 192-193, 220, 248, 300-301, 369-370):
`zmin = z_windows[0]; plt.xlim(zmin, -zmin)`. -/
def xlimOf (axis : List ℚ) : ℚ × ℚ := (axis.headD 0, -(axis.headD 0))

/-- The two curves bounding the shaded region of `plot_sym_exp_free_energy`
(`plotting.py` lines 359-361):
`ax.fill_between(z_windows, resist+resist_err, resist+resist_err, ...)` —
both arguments are `resist + resist_err`. -/
def symExpBand (resist resist_err : List ℚ) : List ℚ × List ℚ :=
  (List.zipWith (· + ·) resist resist_err,
   List.zipWith (· + ·) resist resist_err)

/-- The two curves bounding the shaded region of `plot_forces`
(`plotting.py` lines 42-43): `mean_force + std_err` and
`mean_force - std_err`. -/
noncomputable def forcesBand (M : List (List ℚ)) : List ℝ × List ℝ :=
  (List.zipWith (· + ·) ((meanVec M).map (fun q => (q : ℝ))) (stdErrVec M),
   List.zipWith (· - ·) ((meanVec M).map (fun q => (q : ℝ))) (stdErrVec M))

end Permeability

namespace Permeability

/-- Expanding the sum of squared deviations about an arbitrary center. -/
lemma sum_sq_dev (xs : List ℚ) (m : ℚ) :
    (xs.map (fun x => (x - m) ^ 2)).sum =
      (xs.map (fun x => x ^ 2)).sum - 2 * m * xs.sum
        + (xs.length : ℚ) * m ^ 2 := by
  induction xs with
  | nil => simp
  | cons a t ih =>
    simp only [List.map_cons, List.sum_cons, ih, List.length_cons]
    push_cast
    ring

/-- The population variance (mean of squared deviations) equals the
textbook alternate form `E[x^2] - E[x]^2` on nonempty data. -/
lemma popVar_eq_alt (xs : List ℚ) (h : xs ≠ []) :
    popVar xs = (xs.map (fun x => x ^ 2)).sum / (xs.length : ℚ)
      - (xs.sum / (xs.length : ℚ)) ^ 2 := by
  have hn : (xs.length : ℚ) ≠ 0 :=
    Nat.cast_ne_zero.mpr (by simpa [List.length_eq_zero] using h)
  unfold popVar qmean
  rw [sum_sq_dev]
  field_simp
  ring

/-- On nonempty data, the code's `np.std` is exactly the spec's population
standard deviation. -/
lemma npStd_eq_population_std (xs : List ℚ) (h : xs ≠ []) :
    npStd xs = population_std xs := by
  unfold npStd population_std
  rw [popVar_eq_alt xs h]

lemma qmean_singleton (a : ℚ) : qmean [a] = a := by
  simp [qmean]

lemma popVar_singleton (a : ℚ) : popVar [a] = 0 := by
  simp [popVar, qmean]

/-- Reading a list back off its indices. -/
lemma map_getD_range (l : List ℚ) :
    (List.range l.length).map (fun i => l.getD i 0) = l := by
  induction l with
  | nil => rfl
  | cons a t ih =>
    rw [List.length_cons, List.range_succ_eq_map, List.map_cons,
      List.map_map]
    simp only [List.getD_cons_zero, Function.comp_def, Nat.succ_eq_add_one,
      List.getD_cons_succ]
    rw [ih]

lemma column_singleton (xs : List ℚ) (j : ℕ) :
    column [xs] j = [xs.getD j 0] := rfl

end Permeability

namespace Permeability

/-- Claim C1: the plotting routines compute the per-column standard error
as `np.std(column)/np.sqrt(n)`, which for every sweep matrix with more than
one row equals the population standard deviation of the column divided by
`sqrt(n)`; on axis `[-10,0,10]` with sweep matrix `[[1,2,3],[3,2,1]]` the
mean vector is `[2,2,2]` and the standard errors are
`[1/sqrt 2, 0, 1/sqrt 2]`. -/
theorem C1_standard_error :
    (∀ (M : List (List ℚ)) (j : ℕ), 1 < M.length →
      stdErr M j = population_std (column M j)
        / Real.sqrt ((M.length : ℝ))) ∧
    meanVec [[1, 2, 3], [3, 2, 1]] = [2, 2, 2] ∧
    stdErr [[1, 2, 3], [3, 2, 1]] 0 = 1 / Real.sqrt 2 ∧
    stdErr [[1, 2, 3], [3, 2, 1]] 1 = 0 ∧
    stdErr [[1, 2, 3], [3, 2, 1]] 2 = 1 / Real.sqrt 2 := by
  have e0 : column [[1, 2, 3], [3, 2, 1]] 0 = [1, 3] := rfl
  have e1 : column [[1, 2, 3], [3, 2, 1]] 1 = [2, 2] := rfl
  have e2 : column [[1, 2, 3], [3, 2, 1]] 2 = [3, 1] := rfl
  refine ⟨?_, ?_, ?_, ?_, ?_⟩
  · intro M j h
    have hM : M ≠ [] := by
      intro e
      rw [e] at h
      simp at h
    have hcol : column M j ≠ [] := by
      simp [column, hM]
    rw [stdErr, npStd_eq_population_std _ hcol]
  · norm_num [meanVec, cols, column, qmean, List.range_succ]
  · have h0 : popVar [1, 3] = 1 := by norm_num [popVar, qmean]
    simp [stdErr, npStd, e0, h0]
  · have h1 : popVar [2, 2] = 0 := by norm_num [popVar, qmean]
    simp [stdErr, npStd, e1, h1]
  · have h2 : popVar [3, 1] = 1 := by norm_num [popVar, qmean]
    simp [stdErr, npStd, e2, h2]

/-- Witness for C1's general clause at the concrete two-sweep matrix. -/
theorem C1_standard_error_witness :
    1 < ([[1, 2, 3], [3, 2, 1]] : List (List ℚ)).length ∧
    stdErr [[1, 2, 3], [3, 2, 1]] 0 =
      population_std (column [[1, 2, 3], [3, 2, 1]] 0) /
        Real.sqrt ((([[1, 2, 3], [3, 2, 1]] : List (List ℚ)).length : ℝ)) :=
  ⟨by norm_num, C1_standard_error.1 [[1, 2, 3], [3, 2, 1]] 0 (by norm_num)⟩

/-- Claim C3: for a sweep matrix with exactly one row the computed ensemble
mean is that row unchanged and the standard-error vector is all zeros. -/
theorem C3_single_sweep (xs : List ℚ) :
    meanVec [xs] = xs ∧
    stdErrVec [xs] = List.replicate xs.length (0 : ℝ) := by
  constructor
  · have : meanVec [xs] = (List.range xs.length).map (fun j => xs.getD j 0) := by
      unfold meanVec cols
      simp only [List.headD, column_singleton, qmean_singleton]
    rw [this, map_getD_range]
  · have hz : ∀ j : ℕ, stdErr [xs] j = 0 := by
      intro j
      rw [stdErr, column_singleton, npStd, popVar_singleton]
      simp
    unfold stdErrVec cols
    simp only [List.headD, hz]
    simp

/-- Witness for C3 at a concrete single-sweep matrix. -/
theorem C3_single_sweep_witness :
    meanVec [[1, 2]] = [1, 2] ∧
    stdErrVec [[1, 2]] = List.replicate ([(1 : ℚ), 2]).length (0 : ℝ) :=
  C3_single_sweep [1, 2]

end Permeability

namespace Permeability

/-- Modelled from the spec: the `symmetrize` operation of §4.1 is absent
from `src/` (only `plotting.py` is present, which consumes already
symmetrized profiles).  Exact-index pairing, the spec's default contract:
index `i` with coordinate `z` is paired with the index of the entry whose
coordinate is `-z`. -/
def sympair (axis : List ℚ) (i : ℕ) : ℕ :=
  axis.indexOf (-(axis.getD i 0))

/-- Modelled from the spec: the symmetrized value vector of §4.1 —
each entry is replaced by the average of the paired values. -/
def symVals (axis vals : List ℚ) : List ℚ :=
  (List.range axis.length).map (fun i =>
    (vals.getD i 0 + vals.getD (sympair axis i) 0) / 2)

/-- Modelled from the spec: the symmetrized error at index `i` of §4.1 —
paired errors combine in quadrature divided by two, and the self-paired
center point keeps its error unchanged. -/
noncomputable def symErr (axis errs : List ℚ) (i : ℕ) : ℝ :=
  if sympair axis i = i then ((errs.getD i 0 : ℚ) : ℝ)
  else Real.sqrt ((((errs.getD i 0) ^ 2 + (errs.getD (sympair axis i) 0) ^ 2
    : ℚ) : ℝ)) / 2

/-- The spec's worked symmetrization axis `[-10,-5,0,5,10]`. -/
def axisEx : List ℚ := [-10, -5, 0, 5, 10]

/-- A matplotlib-style rendering failure: the only domain error the spec
assigns to the rendering contract is the shape mismatch. -/
inductive PlotErr where
  | shape
deriving DecidableEq

/-- `ax.plot(x, y)`: succeeds only when the two coordinate vectors have the
same length, as matplotlib enforces. -/
def axplot (x y : List ℚ) : Except PlotErr Unit :=
  if x.length = y.length then .ok () else .error .shape

/-- `ax.fill_between(x, y1, y2)`: all three vectors must share a length. -/
noncomputable def fillBetween (x : List ℚ) (y1 y2 : List ℝ) :
    Except PlotErr Unit :=
  if x.length = y1.length ∧ x.length = y2.length then .ok ()
  else .error .shape

/-- Run drawing steps in order; the first failure aborts the call. -/
def runSteps : List (Except PlotErr Unit) → Option PlotErr
  | [] => none
  | .ok _ :: rest => runSteps rest
  | .error e :: _ => some e

/-- The drawing-and-saving sequence of `plot_forces`
(`plotting.py` lines 37-53) on an already-normalized sweep matrix: if
`plot_mean` is set, plot the mean curve (line 40) and fill the ±1-std-err
band (lines 42-43); then plot each sweep (lines 44-45); only if every step
succeeded does `fig.savefig` (line 53) write the output file.  Returns the
list of files written and the error, if any, that aborted the call. -/
noncomputable def plot_forces_run (z : List ℚ) (M : List (List ℚ))
    (plot_mean : Bool) (fname : String) : List String × Option PlotErr :=
  let steps :=
    (if plot_mean then
      [axplot z (meanVec M),
       fillBetween z (forcesBand M).1 (forcesBand M).2]
    else []) ++ M.map (fun row => axplot z row)
  match runSteps steps with
  | some e => ([], e)
  | none => ([fname], none)

/-- Claim C5: normalizing an autocorrelation sequence divides every sample
by the first (zero-lag) sample, forcing the first sample of the result to 1
when the zero-lag value is nonzero; `[4,2,1,1/2]` normalizes to
`[1,1/2,1/4,1/8]`. -/
theorem C5_acf_normalization :
    (∀ (x : ℚ) (xs : List ℚ), x ≠ 0 →
      (acfNormalize (x :: xs)).headD 0 = 1 ∧
      acfNormalize (x :: xs) = (x :: xs).map (fun y => y / x)) ∧
    acfNormalize [4, 2, 1, 1/2] = [1, 1/2, 1/4, 1/8] := by
  constructor
  · intro x xs hx
    constructor
    · simp [acfNormalize, div_self hx]
    · rfl
  · norm_num [acfNormalize]

/-- Witness for C5 at a concrete input with nonzero zero-lag value. -/
theorem C5_acf_normalization_witness :
    (acfNormalize ((4 : ℚ) :: [2, 1, 1/2])).headD 0 = 1 ∧
    acfNormalize ((4 : ℚ) :: [2, 1, 1/2]) =
      ((4 : ℚ) :: [2, 1, 1/2]).map (fun y => y / 4) :=
  C5_acf_normalization.1 4 [2, 1, 1/2] (by norm_num)

/-- Claim C6 counterexample: with normalization enabled the ACF plotting
routine mutates the caller's arrays — after the call the input sequence
`[4,2,1,1/2]` holds `[1,1/2,1/4,1/8]`, not its original values. -/
theorem C6_mutation_counterexample :
    plot_force_acfs_effect [[4, 2, 1, 1/2]] true = [[1, 1/2, 1/4, 1/8]] ∧
    plot_force_acfs_effect [[4, 2, 1, 1/2]] true ≠ [[4, 2, 1, 1/2]] := by
  have h : plot_force_acfs_effect [[4, 2, 1, 1/2]] true
      = [[1, 1/2, 1/4, 1/8]] := by
    norm_num [plot_force_acfs_effect, acfNormalize]
  refine ⟨h, ?_⟩
  rw [h]
  intro hcontra
  simp at hcontra

/-- Claim C6 amended: the ACF routines divide every input sequence in place
by its own first element when normalization is enabled (so after the call
each sequence holds its original values divided by its original zero-lag
value), and leave the inputs untouched when normalization is disabled. -/
theorem C6_mutation_amended :
    (∀ facfs : List (List ℚ),
      plot_force_acfs_effect facfs false = facfs ∧
      plot_force_acfs_effect facfs true = facfs.map acfNormalize) ∧
    plot_force_acfs_effect [[4, 2, 1, 1/2]] true = [[1, 1/2, 1/4, 1/8]] := by
  refine ⟨fun facfs => ⟨rfl, rfl⟩, ?_⟩
  norm_num [plot_force_acfs_effect, acfNormalize]

/-- Witness for the amended C6 at concrete inputs. -/
theorem C6_mutation_amended_witness :
    plot_force_acfs_effect [[2, 4]] false = [[2, 4]] ∧
    plot_force_acfs_effect [[2, 4]] true = [[(2 : ℚ), 4]].map acfNormalize :=
  C6_mutation_amended.1 [[2, 4]]

/-- Claim C4 counterexample: `plot_resistance_z` computes its statistic
directly on the raw input with no 1-D-to-(1,N) normalization: on the 1-D
input `[1,2,3]` it reduces to the scalar 2, whereas the statistic of the
normalized one-row matrix `[[1,2,3]]` is the vector `[1,2,3]`. -/
theorem C4_normalization_counterexample :
    plot_resistance_mean (NPArr.d1 [1, 2, 3]) = NPVal.scal 2 ∧
    plot_resistance_mean (normalizeData (NPArr.d1 [1, 2, 3])) =
      NPVal.vec [1, 2, 3] ∧
    NPVal.scal 2 ≠ NPVal.vec [1, 2, 3] := by
  refine ⟨?_, ?_, by simp⟩
  · show NPVal.scal (qmean [1, 2, 3]) = NPVal.scal 2
    norm_num [qmean]
  · show NPVal.vec (meanVec [[1, 2, 3]]) = NPVal.vec [1, 2, 3]
    norm_num [meanVec, cols, column, qmean, List.range_succ]

/-- Claim C4 amended: the routines `plot_forces` and `plot_free_energy_z`
normalize a 1-D input of length N to a (1,N) matrix whose single row equals
the input, pass 2-D input through unchanged, and this normalization is
idempotent; `plot_resistance_z`, however, applies its statistics directly
to the raw input with no such normalization, reducing a 1-D input to a
scalar mean. -/
theorem C4_normalization_amended :
    (∀ xs : List ℚ, normalizeData (NPArr.d1 xs) = NPArr.d2 [xs]) ∧
    (∀ m : List (List ℚ), normalizeData (NPArr.d2 m) = NPArr.d2 m) ∧
    (∀ a : NPArr, normalizeData (normalizeData a) = normalizeData a) ∧
    plot_resistance_mean (NPArr.d1 [1, 2, 3]) = NPVal.scal 2 := by
  refine ⟨fun xs => rfl, fun m => rfl, fun a => ?_, ?_⟩
  · cases a <;> rfl
  · show NPVal.scal (qmean [1, 2, 3]) = NPVal.scal 2
    norm_num [qmean]

/-- Witness for the amended C4 at a concrete input. -/
theorem C4_normalization_amended_witness :
    normalizeData (NPArr.d1 [5]) = NPArr.d2 [[5]] :=
  C4_normalization_amended.1 [5]

/-- Claim C9 counterexample: the normalization code raises no error on a
rank-3 input — `if forces.ndim == 1` simply does not fire, and the rank-3
array passes through unchanged (still of rank 3) rather than failing with a
`ShapeError`. -/
theorem C9_rank_counterexample :
    normalizeData (NPArr.d3 [[[1]]]) = NPArr.d3 [[[1]]] ∧
    ndim (normalizeData (NPArr.d3 [[[1]]])) = 3 :=
  ⟨rfl, rfl⟩

/-- Claim C9 amended: the inline normalization reshapes only rank-1 inputs
to one-row matrices; inputs of rank 2 and of rank 3 pass through unchanged,
and no rank check or `ShapeError` is performed at normalization. -/
theorem C9_rank_amended :
    (∀ xs : List ℚ, normalizeData (NPArr.d1 xs) = NPArr.d2 [xs]) ∧
    (∀ m : List (List ℚ), normalizeData (NPArr.d2 m) = NPArr.d2 m) ∧
    (∀ t : List (List (List ℚ)),
      normalizeData (NPArr.d3 t) = NPArr.d3 t ∧
      ndim (normalizeData (NPArr.d3 t)) = 3) :=
  ⟨fun _ => rfl, fun _ => rfl, fun _ => ⟨rfl, rfl⟩⟩

/-- Witness for the amended C9 at a concrete rank-3 input. -/
theorem C9_rank_amended_witness :
    normalizeData (NPArr.d3 [[[1, 2]]]) = NPArr.d3 [[[1, 2]]] ∧
    ndim (normalizeData (NPArr.d3 [[[1, 2]]])) = 3 :=
  C9_rank_amended.2.2 [[[1, 2]]]

/-- Claim C10 at the failing input: in `plot_sym_exp_free_energy` both
bounds of the shaded region are `resist + resist_err`; at `resist = [1]`,
`resist_err = [1/2]` the code shades between `[3/2]` and `[3/2]`, not
between `v - e = [1/2]` and `v + e = [3/2]` as the claim states. -/
theorem C10_band_bug :
    symExpBand [1] [1/2] = ([3/2], [3/2]) ∧
    symExpBand [1] [1/2] ≠
      (List.zipWith (· + ·) [1] [(1 : ℚ)/2],
       List.zipWith (· - ·) [1] [(1 : ℚ)/2]) := by
  constructor
  · norm_num [symExpBand]
  · intro h
    have h2 := congrArg Prod.snd h
    simp only [symExpBand, List.zipWith] at h2
    have h3 : (1 + 1/2 : ℚ) = 1 - 1/2 := by
      simpa using congrArg (fun l => l.headD 0) h2
    norm_num at h3

/-- Claim C7: every profile-rendering routine sets the x-limits to
`(z_windows[0], -z_windows[0])`; under the data-model invariant that the
coordinate axis is ascending, the first element is the minimum, so the
limits are `(min(axis), -min(axis))`; an axis starting at -20 gets limits
exactly `(-20, 20)` regardless of its actual maximum. -/
theorem C7_xlim :
    (∀ axis : List ℚ, axis ≠ [] → List.Sorted (· ≤ ·) axis →
      (xlimOf axis).1 ∈ axis ∧ (∀ x ∈ axis, (xlimOf axis).1 ≤ x) ∧
      (xlimOf axis).2 = -(xlimOf axis).1) ∧
    (∀ rest : List ℚ, xlimOf (-20 :: rest) = (-20, 20)) := by
  constructor
  · intro axis hne hs
    match axis, hne with
    | a :: t, _ =>
      rw [List.sorted_cons] at hs
      refine ⟨by simp [xlimOf], ?_, by simp [xlimOf]⟩
      intro x hx
      rcases List.mem_cons.mp hx with h | h
      · simp [xlimOf, h]
      · simpa [xlimOf] using hs.1 x h
  · intro rest
    norm_num [xlimOf]

/-- Witness for C7 at a concrete ascending axis. -/
theorem C7_xlim_witness :
    (xlimOf [-20, 0, 3]).1 ∈ ([-20, 0, 3] : List ℚ) ∧
    (∀ x ∈ ([-20, 0, 3] : List ℚ), (xlimOf [-20, 0, 3]).1 ≤ x) ∧
    (xlimOf [-20, 0, 3]).2 = -(xlimOf [-20, 0, 3]).1 :=
  C7_xlim.1 [-20, 0, 3] (by simp)
    (by norm_num [List.sorted_cons])

/-- Element formula for the symmetrized value vector at an in-range
index. -/
lemma symVals_getD (axis vals : List ℚ) (i : ℕ) (h : i < axis.length) :
    (symVals axis vals).getD i 0 =
      (vals.getD i 0 + vals.getD (sympair axis i) 0) / 2 := by
  unfold symVals
  rw [List.getD_eq_getElem?_getD, List.getElem?_map, List.getElem?_range h]
  rfl

/-- Claim C2: symmetrization pairs each index with the index whose
coordinate is the negation of its own, averages the paired values,
combines paired errors in quadrature divided by two, and leaves the
self-paired center point unchanged; on axis `[-10,-5,0,5,10]` it pairs
0↔4 and 1↔3 and maps values `[1,2,3,4,5]` to `[3,3,3,3,3]`. -/
theorem C2_symmetrize :
    (∀ (axis vals : List ℚ) (i : ℕ), i < axis.length →
      sympair axis i = i →
      (symVals axis vals).getD i 0 = vals.getD i 0) ∧
    (∀ (axis errs : List ℚ) (i : ℕ), sympair axis i = i →
      symErr axis errs i = ((errs.getD i 0 : ℚ) : ℝ)) ∧
    (∀ (axis errs : List ℚ) (i : ℕ), sympair axis i ≠ i →
      symErr axis errs i =
        Real.sqrt ((((errs.getD i 0) ^ 2
          + (errs.getD (sympair axis i) 0) ^ 2 : ℚ) : ℝ)) / 2) ∧
    sympair axisEx 0 = 4 ∧ sympair axisEx 1 = 3 ∧ sympair axisEx 2 = 2 ∧
    symVals axisEx [1, 2, 3, 4, 5] = [3, 3, 3, 3, 3] := by
  have h0 : sympair [-10, -5, 0, 5, 10] 0 = 4 := by decide
  have h1 : sympair [-10, -5, 0, 5, 10] 1 = 3 := by decide
  have h2 : sympair [-10, -5, 0, 5, 10] 2 = 2 := by decide
  have h3 : sympair [-10, -5, 0, 5, 10] 3 = 1 := by decide
  have h4 : sympair [-10, -5, 0, 5, 10] 4 = 0 := by decide
  refine ⟨?_, ?_, ?_, by decide, by decide, by decide, ?_⟩
  · intro axis vals i hi hp
    rw [symVals_getD axis vals i hi, hp]
    ring
  · intro axis errs i hp
    simp [symErr, hp]
  · intro axis errs i hp
    simp [symErr, hp]
  · norm_num [symVals, axisEx, List.range_succ, h0, h1, h2, h3, h4]

/-- Witness for C2's center-point clause at the spec's worked example. -/
theorem C2_symmetrize_witness :
    (symVals axisEx [1, 2, 3, 4, 5]).getD 2 0 =
      ([1, 2, 3, 4, 5] : List ℚ).getD 2 0 :=
  C2_symmetrize.1 axisEx [1, 2, 3, 4, 5] 2 (by decide) (by decide)

/-- Claim C8: when the coordinate-axis length differs from the sweep
matrix's column count, the rendering call aborts with the shape error at
the first drawing step and the output file is never written (the save is
the final step).  `M ≠ []` reflects the data-model contract that a sweep
matrix has at least one sweep. -/
theorem C8_shape_mismatch (z : List ℚ) (M : List (List ℚ)) (pm : Bool)
    (f : String) (hM : M ≠ [])
    (hrect : ∀ row ∈ M, row.length = cols M)
    (hmis : cols M ≠ z.length) :
    plot_forces_run z M pm f = ([], some PlotErr.shape) := by
  have hlen : (meanVec M).length = cols M := by simp [meanVec]
  cases pm with
  | true =>
    have hfail : axplot z (meanVec M) = Except.error PlotErr.shape := by
      unfold axplot
      rw [hlen, if_neg (fun hc => hmis hc.symm)]
    simp [plot_forces_run, runSteps, hfail]
  | false =>
    obtain ⟨r, rest, rfl⟩ : ∃ r rest, M = r :: rest := by
      cases M with
      | nil => exact absurd rfl hM
      | cons r rest => exact ⟨r, rest, rfl⟩
    have hr : r.length = cols (r :: rest) := hrect r (by simp)
    have hfail : axplot z r = Except.error PlotErr.shape := by
      unfold axplot
      rw [hr, if_neg (fun hc => hmis hc.symm)]
    simp [plot_forces_run, runSteps, hfail]

/-- Witness for C8: axis of length 5 against a 6-column matrix fails with
the shape error and writes no file. -/
theorem C8_shape_mismatch_witness :
    plot_forces_run [0, 1, 2, 3, 4] [[1, 2, 3, 4, 5, 6]] true
      "forces.pdf" = ([], some PlotErr.shape) :=
  C8_shape_mismatch [0, 1, 2, 3, 4] [[1, 2, 3, 4, 5, 6]] true "forces.pdf"
    (by simp)
    (by intro row hr; rw [List.mem_singleton] at hr; rw [hr]; rfl)
    (by decide)

end Permeability
